import Mathlib

/-!
Verification development for the HTTP execution layer of `electron-builder`
(`packages/electron-auto-updater/src/electronHttpExecutor.ts`).

The TypeScript class `ElectronHttpExecutor` is shallowly embedded below:

* the download path (`download` / `doDownload`) becomes `doDownloadStep` (the
  response handler of one attempt) and `runDownload` (the redirect recursion
  driven by an explicit list of responses, one per attempt);
* the API path (`doApiRequest`) becomes `prepareApiOptions` (the in-place
  option mutations performed before the request is issued), `apiResponseStep`
  (the response handler) and `runApiAux` (the redirect recursion);
* helpers from `electron-builder-http` that are not part of the given sources
  (`safeGetHeader`, `maxRedirects`, `HttpError`, `configurePipes`) are
  modelled from the specification, each marked `Modelled from the spec:` in
  its doc comment;
* JavaScript strings, header bags and option objects are modelled explicitly
  (`jsIncludes`, `HeaderValue`, assoc-list objects), including the dynamic
  failure of calling the array method `find` on a plain string.
-/

set_option autoImplicit false

namespace ElectronHttp

/-- Does `sub` occur as a prefix of `s` (character lists)? -/
def hasPrefixCh : List Char → List Char → Bool
  | _, [] => true
  | [], _ :: _ => false
  | c :: cs, d :: ds => c == d && hasPrefixCh cs ds

/-- Does `sub` occur as a contiguous substring of `s` (character lists)? -/
def hasSubCh : List Char → List Char → Bool
  | [], sub => sub.isEmpty
  | c :: cs, sub => hasPrefixCh (c :: cs) sub || hasSubCh cs sub

/-- JavaScript `s.includes(sub)` / `s.indexOf(sub) !== -1` on strings. -/
def jsIncludes (s sub : String) : Bool :=
  hasSubCh s.data sub.data

/-- JavaScript `s.startsWith(pre)`, written over the character list so it
reduces definitionally. -/
def jsStartsWith (s pre : String) : Bool :=
  hasPrefixCh s.data pre.data

/-- JavaScript template interpolation of a possibly-`undefined` string value:
`undefined` prints as the text `undefined`. -/
def jsStr (o : Option String) : String :=
  match o with
  | some s => s
  | none => "undefined"

/-- ASCII lower-casing of a string (JavaScript `toLowerCase` on the ASCII
fragment URLs and header names live in), written over the character list so
it reduces definitionally. -/
def lowerAscii (s : String) : String :=
  String.mk (s.data.map Char.toLower)

/-- Property read `obj[k]` on a JavaScript object with string values,
modelled as an assoc list with unique keys (first binding wins). -/
def jsGetField (hs : List (String × String)) (k : String) : Option String :=
  match hs.find? (fun kv => kv.1 == k) with
  | some kv => some kv.2
  | none => none

/-- Property write `obj[k] = v` on a JavaScript object with string values:
overwrites the existing binding or appends a new one. -/
def jsSetField (hs : List (String × String)) (k v : String) : List (String × String) :=
  match hs with
  | [] => [(k, v)]
  | (k', v') :: rest => if k' == k then (k, v) :: rest else (k', v') :: jsSetField rest k v

/-- A JavaScript value as far as this layer observes it: the executor
distinguishes `undefined` (bare `resolve()`) from `null` (`resolve(null)`),
and produces strings, parsed JSON/YAML structures. -/
inductive JSValue where
  | undef
  | null
  | bool (b : Bool)
  | num (n : Int)
  | str (s : String)
  | arr (elems : List JSValue)
  | obj (fields : List (String × JSValue))

/-- A response-header value as delivered by the transport: either a single
string or a sequence of strings. -/
inductive HeaderValue where
  | str (s : String)
  | arr (values : List String)
deriving DecidableEq

/-- The slice of `Electron.IncomingMessage` this layer reads: status code,
status message, the header object, and the (buffered) body text. -/
structure IncomingMessage where
  statusCode : Int
  statusMessage : String
  headers : List (String × HeaderValue)
  body : String

/-- Property read `response.headers[k]` (exact-key lookup on the header
object; Electron delivers the keys lower-cased). -/
def headersGet (hs : List (String × HeaderValue)) (k : String) : Option HeaderValue :=
  match hs.find? (fun kv => kv.1 == k) with
  | some kv => some kv.2
  | none => none

/-- Modelled from the spec: `safeGetHeader` from `electron-builder-http`
(declared outside the given sources): a case-insensitive header lookup that
tolerates the value being a single string or a sequence of strings; an
absent header (or empty sequence) yields `none`, a sequence yields its
first value. -/
def safeGetHeader (response : IncomingMessage) (name : String) : Option String :=
  match response.headers.find? (fun kv => lowerAscii kv.1 == lowerAscii name) with
  | none => none
  | some (_, HeaderValue.str s) => some s
  | some (_, HeaderValue.arr []) => none
  | some (_, HeaderValue.arr (v :: _)) => some v

/-- The result of Node's `url.parse` restricted to the fields this layer
reads (`protocol`, `hostname`, `port`, `path`); absent components are
`null`. -/
structure ParsedUrl where
  protocol : Option String
  hostname : Option String
  port : Option String
  path : Option String
deriving DecidableEq

/-- Split a character list at the first occurrence of `sep`, returning the
parts before and after it. -/
def splitFirst (s sep : List Char) : Option (List Char × List Char) :=
  match s with
  | [] => if sep.isEmpty then some ([], []) else none
  | c :: cs =>
    if hasPrefixCh (c :: cs) sep then some ([], (c :: cs).drop sep.length)
    else match splitFirst cs sep with
      | some (a, b) => some (c :: a, b)
      | none => none

/-- Take the longest prefix whose characters satisfy `p`, and the rest. -/
def spanCh (p : Char → Bool) : List Char → List Char × List Char
  | [] => ([], [])
  | c :: cs =>
    if p c then
      let (a, b) := spanCh p cs
      (c :: a, b)
    else ([], c :: cs)

/-- Modelled from the spec: Node's `url.parse` (a host-language builtin) on
the fragment the executor feeds it — syntactically valid absolute URLs of
the shape `scheme://host[:port][/path][?query][#hash]` (the spec's
precondition on `download`, and redirect `location` values). `protocol` is
the lower-cased scheme with a trailing colon, `hostname` the lower-cased
host without the port, `port` the explicit port text if any, and `path` the
pathname plus query (defaulting to `/`), excluding any fragment. Other URL
shapes parse to an all-`null` result. -/
def parseUrl (url : String) : ParsedUrl :=
  match splitFirst url.data ("://".data) with
  | none => ⟨none, none, none, none⟩
  | some (scheme, rest) =>
    let (hostport, tail) := spanCh (fun c => !(c == '/' || c == '?' || c == '#')) rest
    let noHash := (spanCh (fun c => !(c == '#')) tail).1
    let path := if noHash.isEmpty then "/"
      else if noHash.head? == some '?' then "/" ++ String.mk noHash
      else String.mk noHash
    match splitFirst hostport [':'] with
    | some (h, p) =>
      ⟨some (lowerAscii (String.mk scheme) ++ ":"), some (lowerAscii (String.mk h)),
        some (String.mk p), some path⟩
    | none =>
      ⟨some (lowerAscii (String.mk scheme) ++ ":"), some (lowerAscii (String.mk hostport)),
        none, some path⟩

/-! ## Download executor (`doDownload`) -/

/-- Modelled from the spec: `maxRedirects` from `electron-builder-http`
(declared outside the given sources); the spec fixes only that the download
redirect bound is "small, single-digit", so a representative single-digit
value is used. None of the theorems below depend on the exact value, only
on its being positive. -/
def maxRedirects : Nat := 8

/-- The request options object built by `doDownload` (an object literal with
exactly the fields `protocol`, `hostname`, `path` and `headers`; note it has
no `port` field and a single `User-Agent` header). -/
structure DownloadRequestOpts where
  protocol : Option String
  hostname : Option String
  path : Option String
  headers : List (String × String)
deriving DecidableEq

/-- The `requestOpts` object literal of `doDownload`: the parsed URL's
protocol, hostname and path, plus the fixed `User-Agent` header. -/
def downloadRequestOpts (url : String) : DownloadRequestOpts :=
  let parsedUrl := parseUrl url
  { protocol := parsedUrl.protocol
    hostname := parsedUrl.hostname
    path := parsedUrl.path
    headers := [("User-Agent", "electron-builder")] }

/-- The download failure message for a status `>= 400`
(`Cannot download "url", status code: message`). -/
def downloadFailMessage (url : String) (response : IncomingMessage) : String :=
  "Cannot download \"" ++ url ++ "\", status " ++ toString response.statusCode ++ ": "
    ++ response.statusMessage

/-- What `doDownload`'s response handler does with one response: invoke the
callback with an error, recurse on a redirect target, or pipe the body to
the destination. -/
inductive DownloadStep where
  | fail (msg : String)
  | redirect (url : String) (redirectCount : Nat)
  | pipe
deriving DecidableEq

/-- The response handler of `doDownload` for one attempt. The recursive call
in the source is `this.doDownload(redirectUrl, destination, redirectCount++,
options, callback)`: `redirectCount++` is a post-increment, so the recursion
receives the OLD value of the counter (the incremented local is never read
again). -/
def doDownloadStep (url : String) (redirectCount : Nat) (response : IncomingMessage) :
    DownloadStep :=
  if 400 ≤ response.statusCode then
    DownloadStep.fail (downloadFailMessage url response)
  else
    match safeGetHeader response "location" with
    | some redirectUrl =>
      if redirectCount < maxRedirects then
        DownloadStep.redirect redirectUrl redirectCount
      else
        DownloadStep.fail ("Too many redirects (> " ++ toString maxRedirects ++ ")")
    | none => DownloadStep.pipe

/-- Terminal outcome of one logical download call. `success` records the
destination path and the bytes streamed to it; `failure` means the callback
was invoked with an error before anything was written; `pending` means the
supplied response list was exhausted with a request still in flight. -/
inductive DownloadOutcome where
  | success (destination : String) (written : String)
  | failure (msg : String)
  | pending
deriving DecidableEq

/-- The redirect recursion of `doDownload`, driven by an explicit list of
responses (one per attempt, in order). Writing to the destination happens
only in the `pipe` case (`configurePipes`, modelled from the spec: it
streams the response body to the destination path and invokes the callback
on completion); the destination path and options pass through redirects
unchanged. -/
def runDownload (url destination : String) (redirectCount : Nat)
    (responses : List IncomingMessage) : DownloadOutcome :=
  match responses with
  | [] => DownloadOutcome.pending
  | r :: rest =>
    match doDownloadStep url redirectCount r with
    | DownloadStep.fail msg => DownloadOutcome.failure msg
    | DownloadStep.pipe => DownloadOutcome.success destination r.body
    | DownloadStep.redirect u c => runDownload u destination c rest

/-- The request options issued over a download's redirect chain, in order:
each attempt issues `net.request` with `downloadRequestOpts` of the current
URL before its response arrives. -/
def downloadAttempts (url : String) (redirectCount : Nat)
    (responses : List IncomingMessage) : List DownloadRequestOpts :=
  downloadRequestOpts url ::
    match responses with
    | [] => []
    | r :: rest =>
      match doDownloadStep url redirectCount r with
      | DownloadStep.redirect u c => downloadAttempts u c rest
      | _ => []

/-! ## API request executor (`doApiRequest`) -/

/-- The slice of `Electron.RequestOptions` read and written by
`doApiRequest`: protocol, hostname, port, path, method and the header
object (string-valued on the request side). All fields are optional, as in
the TypeScript interface. -/
structure ApiRequestOptions where
  protocol : Option String
  hostname : Option String
  port : Option String
  path : Option String
  method : Option String
  headers : List (String × String)
deriving DecidableEq, BEq

/-- The option mutations `doApiRequest` performs before issuing the request.
In the source, `const requestOptions: any = options` is an untyped ALIAS of
the caller's object, not a copy: the `authorization` header injection and
`requestOptions.protocol = "https:"` mutate the caller's options in place.
This function computes the resulting object (which is both what is sent and
what the caller's object has become). -/
def prepareApiOptions (options : ApiRequestOptions) (token : Option String) :
    ApiRequestOptions :=
  let withAuth :=
    match token with
    | none => options
    | some t =>
      { options with
          headers := jsSetField options.headers "authorization"
            (if jsStartsWith t "Basic" then t else "token " ++ t) }
  { withAuth with protocol := some "https:" }

/-- The observable option-object state around one `doApiRequest` attempt:
first component the options the request is issued with, second the caller's
options object after the call. Because the source mutates through an alias,
they are the same object. -/
def doApiRequestSetup (options : ApiRequestOptions) (token : Option String) :
    ApiRequestOptions × ApiRequestOptions :=
  let requestOptions := prepareApiOptions options token
  (requestOptions, requestOptions)

/-- The 404 rejection message of `doApiRequest` (a template literal quoting
the request method, hostname and path, then the token hint). -/
def apiNotFoundMessage (options : ApiRequestOptions) : String :=
  "method: " ++ jsStr options.method ++ " url: https://" ++ jsStr options.hostname
    ++ jsStr options.path
    ++ "\n\nPlease double check that your authentication token is correct. Due to security reasons actual status maybe not reported, but 404.\n"

/-- The dynamic evaluation of
`contentType != null && contentType.find((i) => i.indexOf("json") !== -1)`:
on a missing header the conjunction short-circuits to `false`; on a
sequence value, `Array.prototype.find` yields a matching element (always a
nonempty string, hence truthy) exactly when some value contains `json`; on
a single-string value there is no `find` method on strings, so the
evaluation throws a `TypeError` (caught by the surrounding handler and
turned into a rejection). -/
def isJsonOf : Option HeaderValue → Except String Bool
  | none => Except.ok false
  | some (HeaderValue.arr values) =>
    Except.ok (values.any (fun i => jsIncludes i "json"))
  | some (HeaderValue.str _) =>
    Except.error "contentType.find is not a function"

/-- The `content-type` header as read by `doApiRequest`
(`response.headers["content-type"]`, a plain property access). -/
def contentTypeOf (response : IncomingMessage) : Option HeaderValue :=
  headersGet response.headers "content-type"

/-- Errors a `doApiRequest` promise can reject with. `httpError` is
modelled from the spec: `HttpError` from `electron-builder-http` (declared
outside the given sources) carries the response's status code and message
plus an optional description (the structured error body, or the 404
message text); `simpleError` is a plain `new Error(msg)`; `thrown` is an
exception caught by the handler's `try`/`catch` and passed to `reject`. -/
inductive ApiError where
  | httpError (statusCode : Int) (statusMessage : String) (description : JSValue)
  | simpleError (msg : String)
  | thrown (msg : String)

/-- Settled outcome of an API request promise. `resolved JSValue.undef` is a
bare `resolve()`; `resolved JSValue.null` is `resolve(null)`. -/
inductive ApiOutcome where
  | resolved (v : JSValue)
  | rejected (e : ApiError)

/-- Lift the result of a throwing parse (`JSON.parse`/`safeLoad` inside the
`try`) into an outcome: a parse error is caught and rejects the promise. -/
def parsedOutcome : Except String JSValue → ApiOutcome
  | Except.ok v => ApiOutcome.resolved v
  | Except.error e => ApiOutcome.rejected (ApiError.thrown e)

/-- The body-completion handler of `doApiRequest` (the `response.on("end")`
callback): computes `isJson` from the content-type header (which may
throw), `isYaml` from the request path, then rejects statuses `>= 400`
with an `HttpError` (with the parsed JSON body as description when the
content type was JSON) and resolves statuses `< 400` with `null` for an
empty body, parsed JSON, parsed YAML, or the raw text. `jsonP` stands for
the host builtin `JSON.parse` and `yamlP` for `js-yaml`'s `safeLoad`, both
external to this core. -/
def handleApiBody (options : ApiRequestOptions) (response : IncomingMessage)
    (jsonP yamlP : String → Except String JSValue) : ApiOutcome :=
  match isJsonOf (contentTypeOf response) with
  | Except.error e => ApiOutcome.rejected (ApiError.thrown e)
  | Except.ok isJson =>
    let data := response.body
    let isYaml := jsIncludes (jsStr options.path) ".yml"
    if 400 ≤ response.statusCode then
      if isJson then
        match jsonP data with
        | Except.ok v =>
          ApiOutcome.rejected (ApiError.httpError response.statusCode response.statusMessage v)
        | Except.error e => ApiOutcome.rejected (ApiError.thrown e)
      else
        ApiOutcome.rejected
          (ApiError.httpError response.statusCode response.statusMessage JSValue.undef)
    else
      if data.length == 0 then ApiOutcome.resolved JSValue.null
      else if isJson then parsedOutcome (jsonP data)
      else if isYaml then parsedOutcome (yamlP data)
      else ApiOutcome.resolved (JSValue.str data)

/-- The redirected options object:
`Object.assign({}, options, parseUrl(redirectUrl))` — a fresh object taking
every field of `options`, with the parsed URL's own fields (`protocol`,
`hostname`, `port`, `path`; always present on a parse result, possibly
`null`) overriding. `method` and `headers` come from `options`. -/
def apiRedirectOptions (options : ApiRequestOptions) (redirectUrl : String) :
    ApiRequestOptions :=
  let parsedUrl := parseUrl redirectUrl
  { options with
      protocol := parsedUrl.protocol
      hostname := parsedUrl.hostname
      port := parsedUrl.port
      path := parsedUrl.path }

/-- What `doApiRequest`'s response handler does with one response: settle
the promise, or recurse into a new attempt on a redirect. -/
inductive ApiStep where
  | settled (o : ApiOutcome)
  | redirect (options : ApiRequestOptions) (redirectCount : Nat)

/-- The response handler of `doApiRequest` for one attempt. Notes kept
faithful to the source: (a) the 404 branch does not `return`, but the
promise is already rejected there, so the rejection is the settled outcome
(later `resolve`/`reject` calls are no-ops and are not modelled); (b) the
redirect recursion `this.doApiRequest(Object.assign({}, options,
parseUrl(redirectUrl)), token, requestProcessor)` OMITS the
`redirectCount` argument, so the recursive call receives the declared
default `0`; (c) the bound check is `redirectCount > 10`. -/
def apiResponseStep (options : ApiRequestOptions) (redirectCount : Nat)
    (response : IncomingMessage) (jsonP yamlP : String → Except String JSValue) : ApiStep :=
  if response.statusCode == 404 then
    ApiStep.settled (ApiOutcome.rejected
      (ApiError.httpError response.statusCode response.statusMessage
        (JSValue.str (apiNotFoundMessage options))))
  else if response.statusCode == 204 then
    ApiStep.settled (ApiOutcome.resolved JSValue.undef)
  else
    match safeGetHeader response "location" with
    | some redirectUrl =>
      if redirectCount > 10 then
        ApiStep.settled (ApiOutcome.rejected (ApiError.simpleError "Too many redirects (> 10)"))
      else
        ApiStep.redirect (apiRedirectOptions options redirectUrl) 0
    | none => ApiStep.settled (handleApiBody options response jsonP yamlP)

/-- Settled-or-pending outcome of one logical API call run against an
explicit list of responses. -/
inductive ApiRunOutcome where
  | settled (o : ApiOutcome)
  | pending

/-- Result of running one logical API call: the outcome, plus the hop
indices of the fresh request objects handed to `requestProcessor` (one
brand-new request per attempt; the processor is invoked exactly once per
request, at creation, before any response arrives). -/
structure ApiRunResult where
  outcome : ApiRunOutcome
  processed : List Nat

/-- The redirect recursion of `doApiRequest`, driven by an explicit list of
responses (one per attempt, in order). Each entry re-runs the option
mutations (`prepareApiOptions`, as the source's recursion calls
`doApiRequest` afresh, which re-forces the protocol and re-injects the
same `authorization` header) and records that `requestProcessor` was
applied to this attempt's fresh request (`hop` is the attempt index). -/
def runApiAux (options : ApiRequestOptions) (token : Option String)
    (redirectCount : Nat) (hop : Nat) (responses : List IncomingMessage)
    (jsonP yamlP : String → Except String JSValue) : ApiRunResult :=
  let requestOptions := prepareApiOptions options token
  match responses with
  | [] => ⟨ApiRunOutcome.pending, [hop]⟩
  | r :: rest =>
    match apiResponseStep requestOptions redirectCount r jsonP yamlP with
    | ApiStep.settled o => ⟨ApiRunOutcome.settled o, [hop]⟩
    | ApiStep.redirect newOptions newCount =>
      let sub := runApiAux newOptions token newCount (hop + 1) rest jsonP yamlP
      ⟨sub.outcome, hop :: sub.processed⟩

/-! ## A concrete model of the host `JSON.parse` builtin -/

/-- Skip JSON whitespace. -/
def skipWs : List Char → List Char
  | [] => []
  | c :: cs => if c == ' ' || c == '\n' || c == '\t' || c == '\r' then skipWs cs else c :: cs

/-- Read a JSON string body after the opening quote, up to and past the
closing quote, decoding the single-character escapes. -/
def parseJStr : List Char → Option (List Char × List Char)
  | [] => none
  | c :: cs =>
    if c == '"' then some ([], cs)
    else if c == '\\' then
      match cs with
      | [] => none
      | e :: rest =>
        match parseJStr rest with
        | some (s, r) =>
          let d := if e == 'n' then '\n' else if e == 't' then '\t'
            else if e == 'r' then '\r' else e
          some (d :: s, r)
        | none => none
    else
      match parseJStr cs with
      | some (s, r) => some (c :: s, r)
      | none => none

/-- Decimal digits to a natural number. -/
def digitsToNat (ds : List Char) : Nat :=
  ds.foldl (fun n c => n * 10 + (c.toNat - '0'.toNat)) 0

mutual

/-- Modelled from the spec: the host-language builtin `JSON.parse` (used by
`doApiRequest` for JSON bodies and error descriptions; not code of this
repository), restricted to the fragment exercised by the executor's
contract: objects, arrays, strings with simple escapes, integers, booleans
and null. `fuel` bounds the recursion depth; `jsonParse` below supplies
enough for any input it is asked to parse here. -/
def parseJVal (fuel : Nat) (cs : List Char) : Except String (JSValue × List Char) :=
  match fuel with
  | 0 => Except.error "Unexpected end of JSON input"
  | f + 1 =>
    match skipWs cs with
    | [] => Except.error "Unexpected end of JSON input"
    | c :: rest =>
      if c == '\x7b' then
        match skipWs rest with
        | '\x7d' :: r2 => Except.ok (JSValue.obj [], r2)
        | r2 => do
          let (fields, r3) ← parseJFields f r2
          Except.ok (JSValue.obj fields, r3)
      else if c == '[' then
        match skipWs rest with
        | ']' :: r2 => Except.ok (JSValue.arr [], r2)
        | r2 => do
          let (items, r3) ← parseJItems f r2
          Except.ok (JSValue.arr items, r3)
      else if c == '"' then
        match parseJStr rest with
        | some (s, r2) => Except.ok (JSValue.str (String.mk s), r2)
        | none => Except.error "Unterminated string in JSON"
      else if c == 't' then
        if hasPrefixCh rest ("rue".data) then Except.ok (JSValue.bool true, rest.drop 3)
        else Except.error "Unexpected token in JSON"
      else if c == 'f' then
        if hasPrefixCh rest ("alse".data) then Except.ok (JSValue.bool false, rest.drop 4)
        else Except.error "Unexpected token in JSON"
      else if c == 'n' then
        if hasPrefixCh rest ("ull".data) then Except.ok (JSValue.null, rest.drop 3)
        else Except.error "Unexpected token in JSON"
      else if c == '-' then
        match spanCh (fun d => d.isDigit) rest with
        | ([], _) => Except.error "Unexpected token in JSON"
        | (ds, r2) => Except.ok (JSValue.num (-(digitsToNat ds : Int)), r2)
      else if c.isDigit then
        let (ds, r2) := spanCh (fun d => d.isDigit) rest
        Except.ok (JSValue.num (digitsToNat (c :: ds)), r2)
      else Except.error "Unexpected token in JSON"

/-- Members of a JSON object after the opening brace (at least one member),
consuming the closing brace. -/
def parseJFields (fuel : Nat) (cs : List Char) :
    Except String (List (String × JSValue) × List Char) :=
  match fuel with
  | 0 => Except.error "Unexpected end of JSON input"
  | f + 1 =>
    match skipWs cs with
    | '"' :: r1 =>
      match parseJStr r1 with
      | none => Except.error "Unterminated string in JSON"
      | some (key, r2) =>
        match skipWs r2 with
        | ':' :: r3 => do
          let (v, r4) ← parseJVal f r3
          match skipWs r4 with
          | ',' :: r5 => do
            let (fields, r6) ← parseJFields f r5
            Except.ok ((String.mk key, v) :: fields, r6)
          | '\x7d' :: r5 => Except.ok ([(String.mk key, v)], r5)
          | _ => Except.error "Expected comma or closing brace in JSON object"
        | _ => Except.error "Expected colon in JSON object"
    | _ => Except.error "Expected string key in JSON object"

/-- Elements of a JSON array after the opening bracket (at least one
element), consuming the closing bracket. -/
def parseJItems (fuel : Nat) (cs : List Char) :
    Except String (List JSValue × List Char) :=
  match fuel with
  | 0 => Except.error "Unexpected end of JSON input"
  | f + 1 => do
    let (v, r1) ← parseJVal f cs
    match skipWs r1 with
    | ',' :: r2 => do
      let (items, r3) ← parseJItems f r2
      Except.ok (v :: items, r3)
    | ']' :: r2 => Except.ok ([v], r2)
    | _ => Except.error "Expected comma or closing bracket in JSON array"

end

/-- `JSON.parse` on a whole input string: one value, then only trailing
whitespace. -/
def jsonParse (s : String) : Except String JSValue := do
  let (v, rest) ← parseJVal (2 * s.length + 4) s.data
  if (skipWs rest).isEmpty then Except.ok v
  else Except.error "Unexpected non-whitespace character after JSON data"

/-! ## Substring and field-lookup lemmas -/

theorem hasPrefixCh_append (ys zs : List Char) : hasPrefixCh (ys ++ zs) ys = true := by
  induction ys with
  | nil => cases zs <;> rfl
  | cons c cs ih => simp [hasPrefixCh, ih]

theorem hasSubCh_append_left (xs ys sub : List Char) (h : hasSubCh ys sub = true) :
    hasSubCh (xs ++ ys) sub = true := by
  induction xs with
  | nil => exact h
  | cons c cs ih => simp [hasSubCh, ih]

theorem hasSubCh_self (ys zs : List Char) : hasSubCh (ys ++ zs) ys = true := by
  cases ys with
  | nil => cases zs <;> rfl
  | cons c cs =>
    show (hasPrefixCh ((c :: cs) ++ zs) (c :: cs) || hasSubCh (cs ++ zs) (c :: cs)) = true
    rw [hasPrefixCh_append, Bool.true_or]

theorem jsIncludes_sandwich (pre mid suf : String) :
    jsIncludes (pre ++ mid ++ suf) mid = true := by
  unfold jsIncludes
  have h : (pre ++ mid ++ suf).data = pre.data ++ (mid.data ++ suf.data) := by
    show (pre.data ++ mid.data) ++ suf.data = _
    exact List.append_assoc _ _ _
  rw [h]
  exact hasSubCh_append_left _ _ _ (hasSubCh_self _ _)

theorem jsIncludes_suffix (pre mid : String) : jsIncludes (pre ++ mid) mid = true := by
  unfold jsIncludes
  show hasSubCh (pre.data ++ mid.data) mid.data = true
  refine hasSubCh_append_left _ _ _ ?_
  have h := hasSubCh_self mid.data []
  simpa using h

theorem jsIncludes_append_right (pre suf sub : String) (h : jsIncludes suf sub = true) :
    jsIncludes (pre ++ suf) sub = true := by
  unfold jsIncludes at h ⊢
  exact hasSubCh_append_left _ _ _ h

theorem jsIncludes_of_parts (s pre mid suf : String) (h : s = pre ++ mid ++ suf) :
    jsIncludes s mid = true := by
  rw [h]; exact jsIncludes_sandwich pre mid suf

theorem jsGetField_jsSetField (hs : List (String × String)) (k v : String) :
    jsGetField (jsSetField hs k v) k = some v := by
  induction hs with
  | nil => simp [jsSetField, jsGetField, List.find?]
  | cons kv rest ih =>
    obtain ⟨k', v'⟩ := kv
    cases hkk : k' == k with
    | true => simp [jsSetField, jsGetField, hkk, List.find?]
    | false =>
      simp only [jsSetField, hkk, Bool.false_eq_true, if_false]
      simpa [jsGetField, List.find?, hkk] using ih

/-- The hop indices recorded by `runApiAux` form the contiguous range
starting at the initial hop index: one fresh request per attempt, each
handed to the request processor exactly once. -/
theorem runApiAux_processed_range (responses : List IncomingMessage)
    (options : ApiRequestOptions) (token : Option String) (redirectCount hop : Nat)
    (jsonP yamlP : String → Except String JSValue) :
    ∃ k, (runApiAux options token redirectCount hop responses jsonP yamlP).processed
        = List.range' hop k ∧ 0 < k := by
  induction responses generalizing options redirectCount hop with
  | nil => exact ⟨1, rfl, Nat.one_pos⟩
  | cons r rest ih =>
    cases hstep : apiResponseStep (prepareApiOptions options token) redirectCount r jsonP yamlP with
    | settled o =>
      refine ⟨1, ?_, Nat.one_pos⟩
      simp only [runApiAux, hstep]
      rfl
    | redirect newOptions newCount =>
      obtain ⟨k, hk, hpos⟩ := ih newOptions newCount (hop + 1)
      refine ⟨k + 1, ?_, Nat.succ_pos k⟩
      simp only [runApiAux, hstep]
      rw [hk, List.range'_succ]

/-! ## Concrete fixtures -/

/-- Fixture: a fully populated API options object (already secure). -/
def sampleOptions : ApiRequestOptions :=
  ⟨some "https:", some "api.example.com", none, some "/repos", some "GET", []⟩

/-- Fixture: an API options object with an insecure protocol and no
authorization header, to observe the in-place mutations. -/
def httpOptions : ApiRequestOptions :=
  ⟨some "http:", some "api.example.com", none, some "/repos", some "GET", []⟩

/-- Fixture: a redirect response (302 with a `location` header). -/
def redirectResponse : IncomingMessage :=
  ⟨302, "Found", [("location", HeaderValue.str "https://example.com/next")], ""⟩

/-- Fixture: a plain 200 download response with body `BYTES`. -/
def downloadOkResponse : IncomingMessage := ⟨200, "OK", [], "BYTES"⟩

/-- Fixture: a plain 200 API response with text body `ok`. -/
def apiOkTextResponse : IncomingMessage := ⟨200, "OK", [], "ok"⟩

/-- Fixture: a 204 response that technically carries a JSON content type and
a body. -/
def noContentResponse : IncomingMessage :=
  ⟨204, "No Content", [("content-type", HeaderValue.arr ["application/json"])], "\x7b\x7d"⟩

/-- Fixture: a 404 response. -/
def notFoundResponse : IncomingMessage := ⟨404, "Not Found", [], ""⟩

/-- Fixture: a 200 response whose `content-type` header value is a single
string rather than a sequence. -/
def strContentTypeResponse : IncomingMessage :=
  ⟨200, "OK", [("content-type", HeaderValue.str "application/json")], "\x7b\"a\":1\x7d"⟩

/-- Fixture: a 200 response with a JSON sequence content type and body
`{"a":1}`. -/
def jsonResponse : IncomingMessage :=
  ⟨200, "OK", [("content-type", HeaderValue.arr ["application/json"])], "\x7b\"a\":1\x7d"⟩

/-- Fixture: a 200 response with no headers and an empty body. -/
def emptyBodyResponse : IncomingMessage := ⟨200, "OK", [], ""⟩

/-- Fixture: a 200 response with an empty body whose `content-type` header
value is a single string rather than a sequence. -/
def emptyBodyStrCTResponse : IncomingMessage :=
  ⟨200, "OK", [("content-type", HeaderValue.str "text/plain")], ""⟩

/-- A trivial instantiation for the external YAML collaborator (`js-yaml`'s
`safeLoad`) in concrete runs that do not exercise the YAML branch: wraps
the text unchanged. -/
def echoParse : String → Except String JSValue :=
  fun s => Except.ok (JSValue.str s)

/-- Does an API step settle by resolving with the JavaScript value `null`?
(Separates `resolve(null)` from the bare `resolve()` used at status 204.) -/
def resolvesWithNull : ApiStep → Bool
  | ApiStep.settled (ApiOutcome.resolved JSValue.null) => true
  | _ => false

/-- Does an API outcome resolve with the JavaScript value `null`? -/
def outcomeResolvesNull : ApiOutcome → Bool
  | ApiOutcome.resolved JSValue.null => true
  | _ => false

/-- Is the caller's options object unchanged after the setup phase of
`doApiRequest`? -/
def optionsUntouched (options : ApiRequestOptions) (token : Option String) : Bool :=
  (doApiRequestSetup options token).2 == options

/-! ## Claims -/

/-- C1 (code bug, evaluated at the failing input): the download redirect
bound is never enforced. The recursive call in the source is
`this.doDownload(redirectUrl, destination, redirectCount++, options,
callback)`: `redirectCount++` is a post-increment, so the recursion
receives the OLD counter value and every hop re-enters with the same
count. A redirect chain of 12 hops (well above the bound, here 8) is
followed to the end and the download succeeds, where the claim (and the
spec) require rejection with the "too many redirects" error naming the
bound; the last conjuncts exhibit the unchanged counter on a followed
redirect (0 stays 0, 5 stays 5). -/
theorem c1_overlong_chain_not_rejected :
    runDownload "https://example.com/start" "/tmp/out.zip" 0
      (List.replicate 12 redirectResponse ++ [downloadOkResponse])
      = DownloadOutcome.success "/tmp/out.zip" "BYTES"
  ∧ maxRedirects < 12
  ∧ doDownloadStep "https://example.com/start" 0 redirectResponse
      = DownloadStep.redirect "https://example.com/next" 0
  ∧ doDownloadStep "https://example.com/next" 5 redirectResponse
      = DownloadStep.redirect "https://example.com/next" 5 :=
  ⟨by decide, by decide, by decide, by decide⟩

/-- C2 (code bug, evaluated at the failing input): the API redirect counter
is reset on every internal recursion — the recursive `doApiRequest` call
omits the `redirectCount` argument, which therefore takes its declared
default 0 — so a chain of 12 redirects (> 10) is followed to the end and
resolves instead of rejecting with "Too many redirects (> 10)"; the second
conjunct shows a hop entered with the counter already at 9 still recursing
with 0 rather than 10. -/
theorem c2_api_redirect_counter_reset :
    (runApiAux sampleOptions none 0 0
        (List.replicate 12 redirectResponse ++ [apiOkTextResponse])
        jsonParse echoParse).outcome
      = ApiRunOutcome.settled (ApiOutcome.resolved (JSValue.str "ok"))
  ∧ apiResponseStep sampleOptions 9 redirectResponse jsonParse echoParse
      = ApiStep.redirect (apiRedirectOptions sampleOptions "https://example.com/next") 0 :=
  ⟨rfl, rfl⟩

/-- C3 counterexample: at status 204 the source resolves with a bare
`resolve()` — the JavaScript value `undefined` — not with `null` (which
the executor does use elsewhere, for an empty body at a 2xx status): at
this concrete 204 response, with a JSON content type and a body present,
the operation settles with `undefined`, so the claim's "resolves with the
value null" is false. -/
theorem c3_status204_resolves_undefined_not_null :
    apiResponseStep sampleOptions 0 noContentResponse jsonParse echoParse
      = ApiStep.settled (ApiOutcome.resolved JSValue.undef)
  ∧ resolvesWithNull (apiResponseStep sampleOptions 0 noContentResponse jsonParse echoParse)
      = false :=
  ⟨rfl, rfl⟩

/-- C3 (amended): for every API response with status code 204, the
operation settles immediately with the empty value `undefined` (a bare
`resolve()`), regardless of the content-type header and without reading
any body that may be present. -/
theorem c3_status204_resolves_empty (options : ApiRequestOptions) (redirectCount : Nat)
    (response : IncomingMessage) (jsonP yamlP : String → Except String JSValue)
    (h : response.statusCode = 204) :
    apiResponseStep options redirectCount response jsonP yamlP
      = ApiStep.settled (ApiOutcome.resolved JSValue.undef) := by
  obtain ⟨sc, sm, hs, bd⟩ := response
  replace h : sc = 204 := h
  subst h
  rfl

/-- C3 witness: the amended theorem applied at a concrete 204 response
carrying a JSON content type and a body. -/
theorem c3_status204_resolves_empty_witness :
    apiResponseStep sampleOptions 0 noContentResponse jsonParse echoParse
      = ApiStep.settled (ApiOutcome.resolved JSValue.undef) :=
  c3_status204_resolves_empty sampleOptions 0 noContentResponse jsonParse echoParse rfl

/-- C4 counterexample: when the `content-type` header value is a single
string, the source's `contentType.find((i) => i.indexOf("json") !== -1)`
does not evaluate without error — strings have no `find` method, so the
check throws a `TypeError` and the surrounding handler rejects the request
with it, even though the value plainly contains the JSON media type. -/
theorem c4_single_string_content_type_throws :
    isJsonOf (contentTypeOf strContentTypeResponse)
      = Except.error "contentType.find is not a function"
  ∧ handleApiBody sampleOptions strContentTypeResponse jsonParse echoParse
      = ApiOutcome.rejected (ApiError.thrown "contentType.find is not a function") :=
  ⟨rfl, rfl⟩

/-- C4 (amended): the JSON-media-type detection evaluates without error to
"does some value contain the `json` substring" when the `content-type`
header is absent or its value is a sequence of strings; when the value is
a single string, the detection instead throws (`find` is not a string
method) and the request rejects with that error. -/
theorem c4_json_detection_by_header_form (values : List String) (s : String) :
    isJsonOf none = Except.ok false
  ∧ isJsonOf (some (HeaderValue.arr values))
      = Except.ok (values.any (fun i => jsIncludes i "json"))
  ∧ isJsonOf (some (HeaderValue.str s))
      = Except.error "contentType.find is not a function" :=
  ⟨rfl, rfl, rfl⟩

/-- C5: the request body writer is applied exactly once per request: over
any run of one logical API call, the hop indices of the fresh requests
handed to `requestProcessor` are duplicate-free (no request object ever
receives a second application), and the original request — hop 0 — receives
exactly one application; every redirect hop issues a brand-new request (a
fresh hop index) built from the merged redirect target. -/
theorem c5_body_writer_once_per_request (options : ApiRequestOptions)
    (token : Option String) (redirectCount : Nat) (responses : List IncomingMessage)
    (jsonP yamlP : String → Except String JSValue) :
    (runApiAux options token redirectCount 0 responses jsonP yamlP).processed.count 0 = 1
  ∧ (runApiAux options token redirectCount 0 responses jsonP yamlP).processed.Nodup := by
  obtain ⟨k, hk, hpos⟩ :=
    runApiAux_processed_range responses options token redirectCount 0 jsonP yamlP
  rw [hk]
  refine ⟨?_, List.nodup_range' 0 k⟩
  obtain ⟨k', rfl⟩ := Nat.exists_eq_succ_of_ne_zero (Nat.pos_iff_ne_zero.mp hpos)
  rw [List.range'_succ]
  have hnot : (0 : Nat) ∉ List.range' (0 + 1) k' := by
    intro hmem
    rw [List.mem_range'] at hmem
    obtain ⟨i, _, hi⟩ := hmem
    omega
  simp [List.count_cons_self, List.count_eq_zero.mpr hnot]

/-- C6 counterexample: `const requestOptions: any = options` aliases the
caller's object, so the setup phase of `doApiRequest` mutates the caller's
options mapping in place: after the call the caller's object has protocol
`https:` (it was `http:`) and an injected `authorization` header (there
was none) — refuting "does not mutate the caller's options mapping in
place" at this concrete input. -/
theorem c6_options_mutated_in_place :
    (doApiRequestSetup httpOptions (some "secret")).2.protocol = some "https:"
  ∧ httpOptions.protocol = some "http:"
  ∧ jsGetField (doApiRequestSetup httpOptions (some "secret")).2.headers "authorization"
      = some "token secret"
  ∧ jsGetField httpOptions.headers "authorization" = none
  ∧ optionsUntouched httpOptions (some "secret") = false :=
  ⟨rfl, rfl, rfl, rfl, rfl⟩

/-- C6 (amended): the setup phase mutates the caller's options object in
place — the object the request is issued with and the caller's object
after the call are the same value, with the protocol forced to `https:`
and the authorization header injected (`Basic` tokens pass through,
others are wrapped as `token <value>`) — while a redirect does construct a
new descriptor: a fresh object keeping `method` and `headers` and taking
`protocol`, `hostname`, `port` and `path` from the parsed redirect URL. -/
theorem c6_mutation_and_redirect_copy (options : ApiRequestOptions) (t u : String) :
    (prepareApiOptions options (some t)).protocol = some "https:"
  ∧ jsGetField (prepareApiOptions options (some t)).headers "authorization"
      = some (if jsStartsWith t "Basic" then t else "token " ++ t)
  ∧ (doApiRequestSetup options (some t)).2 = prepareApiOptions options (some t)
  ∧ (apiRedirectOptions options u).method = options.method
  ∧ (apiRedirectOptions options u).headers = options.headers
  ∧ (apiRedirectOptions options u).protocol = (parseUrl u).protocol
  ∧ (apiRedirectOptions options u).hostname = (parseUrl u).hostname
  ∧ (apiRedirectOptions options u).port = (parseUrl u).port
  ∧ (apiRedirectOptions options u).path = (parseUrl u).path := by
  refine ⟨rfl, ?_, rfl, rfl, rfl, rfl, rfl, rfl, rfl⟩
  simp [prepareApiOptions, jsGetField_jsSetField]

/-- C7: a 404 API response settles as a rejection whose error carries the
message quoting the request's method, hostname and path as substrings and
explicitly suggesting a check of the authentication token. -/
theorem c7_api_404_message (options : ApiRequestOptions) (redirectCount : Nat)
    (response : IncomingMessage) (jsonP yamlP : String → Except String JSValue)
    (m hn p : String)
    (hst : response.statusCode = 404)
    (hm : options.method = some m) (hh : options.hostname = some hn)
    (hp : options.path = some p) :
    apiResponseStep options redirectCount response jsonP yamlP
      = ApiStep.settled (ApiOutcome.rejected (ApiError.httpError response.statusCode
          response.statusMessage (JSValue.str (apiNotFoundMessage options))))
  ∧ jsIncludes (apiNotFoundMessage options) m = true
  ∧ jsIncludes (apiNotFoundMessage options) hn = true
  ∧ jsIncludes (apiNotFoundMessage options) p = true
  ∧ jsIncludes (apiNotFoundMessage options)
      "Please double check that your authentication token is correct" = true := by
  have hmsg : apiNotFoundMessage options
      = "method: " ++ m ++ " url: https://" ++ hn ++ p
        ++ "\n\nPlease double check that your authentication token is correct. Due to security reasons actual status maybe not reported, but 404.\n" := by
    simp [apiNotFoundMessage, hm, hh, hp, jsStr]
  refine ⟨?_, ?_, ?_, ?_, ?_⟩
  · simp [apiResponseStep, hst]
  · refine jsIncludes_of_parts _ "method: " m (" url: https://" ++ hn ++ p
      ++ "\n\nPlease double check that your authentication token is correct. Due to security reasons actual status maybe not reported, but 404.\n") ?_
    simp [hmsg, String.append_assoc]
  · refine jsIncludes_of_parts _ ("method: " ++ m ++ " url: https://") hn (p
      ++ "\n\nPlease double check that your authentication token is correct. Due to security reasons actual status maybe not reported, but 404.\n") ?_
    simp [hmsg, String.append_assoc]
  · refine jsIncludes_of_parts _ ("method: " ++ m ++ " url: https://" ++ hn) p
      "\n\nPlease double check that your authentication token is correct. Due to security reasons actual status maybe not reported, but 404.\n" ?_
    simp [hmsg, String.append_assoc]
  · rw [hmsg]
    exact jsIncludes_append_right _ _ _ (by decide)

/-- C7 witness: the theorem applied at a concrete GET request and a
concrete 404 response. -/
theorem c7_api_404_message_witness :
    apiResponseStep sampleOptions 0 notFoundResponse jsonParse echoParse
      = ApiStep.settled (ApiOutcome.rejected (ApiError.httpError notFoundResponse.statusCode
          notFoundResponse.statusMessage (JSValue.str (apiNotFoundMessage sampleOptions))))
  ∧ jsIncludes (apiNotFoundMessage sampleOptions) "GET" = true
  ∧ jsIncludes (apiNotFoundMessage sampleOptions) "api.example.com" = true
  ∧ jsIncludes (apiNotFoundMessage sampleOptions) "/repos" = true
  ∧ jsIncludes (apiNotFoundMessage sampleOptions)
      "Please double check that your authentication token is correct" = true :=
  c7_api_404_message sampleOptions 0 notFoundResponse jsonParse echoParse
    "GET" "api.example.com" "/repos" rfl rfl rfl rfl

/-- C8: a download response with status `>= 400` makes the logical call fail
at once with the message carrying the URL, the status code and the status
message; no `success` outcome (the only constructor recording bytes
written to the destination) is produced, and the body is never piped. -/
theorem c8_download_error_status (url destination : String) (redirectCount : Nat)
    (response : IncomingMessage) (rest : List IncomingMessage)
    (h : 400 ≤ response.statusCode) :
    runDownload url destination redirectCount (response :: rest)
      = DownloadOutcome.failure (downloadFailMessage url response)
  ∧ jsIncludes (downloadFailMessage url response) url = true
  ∧ jsIncludes (downloadFailMessage url response) (toString response.statusCode) = true
  ∧ jsIncludes (downloadFailMessage url response) response.statusMessage = true := by
  refine ⟨?_, ?_, ?_, ?_⟩
  · simp [runDownload, doDownloadStep, h]
  · refine jsIncludes_of_parts _ "Cannot download \"" url
      ("\", status " ++ toString response.statusCode ++ ": " ++ response.statusMessage) ?_
    simp [downloadFailMessage, String.append_assoc]
  · refine jsIncludes_of_parts _ ("Cannot download \"" ++ url ++ "\", status ")
      (toString response.statusCode) (": " ++ response.statusMessage) ?_
    simp [downloadFailMessage, String.append_assoc]
  · unfold downloadFailMessage
    exact jsIncludes_suffix _ _

/-- C8 witness: the theorem applied at a concrete URL and a concrete 404
response, with no further responses queued. -/
theorem c8_download_error_status_witness :
    runDownload "https://example.com/file.zip" "/tmp/out.zip" 0 [notFoundResponse]
      = DownloadOutcome.failure (downloadFailMessage "https://example.com/file.zip" notFoundResponse)
  ∧ jsIncludes (downloadFailMessage "https://example.com/file.zip" notFoundResponse)
      "https://example.com/file.zip" = true
  ∧ jsIncludes (downloadFailMessage "https://example.com/file.zip" notFoundResponse)
      (toString notFoundResponse.statusCode) = true
  ∧ jsIncludes (downloadFailMessage "https://example.com/file.zip" notFoundResponse)
      notFoundResponse.statusMessage = true :=
  c8_download_error_status "https://example.com/file.zip" "/tmp/out.zip" 0
    notFoundResponse [] (by decide)

/-- C9 counterexample: the claim says an empty body resolves with `null`,
but the source computes `isJson` from the content-type header BEFORE the
`data.length === 0` check — at this concrete non-redirect 200 response
with an empty body and a single-string `content-type` value, the handler
rejects with the thrown TypeError instead of resolving `null`. -/
theorem c9_empty_body_with_string_content_type_rejects :
    handleApiBody sampleOptions emptyBodyStrCTResponse jsonParse echoParse
      = ApiOutcome.rejected (ApiError.thrown "contentType.find is not a function")
  ∧ outcomeResolvesNull (handleApiBody sampleOptions emptyBodyStrCTResponse jsonParse echoParse)
      = false
  ∧ emptyBodyStrCTResponse.statusCode = 200
  ∧ emptyBodyStrCTResponse.body.length = 0 :=
  ⟨rfl, rfl, rfl, rfl⟩

/-- C9 (amended): for a non-redirect API response with status below 400,
the content-type check runs before the empty-body test, so when the
`content-type` header value is a single string the operation rejects with
the thrown TypeError regardless of the body (even an empty one); when the
header is absent or its value is a sequence (the check evaluating to `b`
without error), an empty body resolves to `null`, otherwise a JSON content
type hands the body to `JSON.parse` — concretely, body `{"a":1}` under
`application/json` resolves to the structural object with field `a` equal
to 1 — otherwise a request path containing `.yml` hands the body to the
YAML parse, otherwise the raw text resolves. -/
theorem c9_body_parse_dispatch_guarded :
    (∀ (options : ApiRequestOptions) (response : IncomingMessage)
        (jsonP yamlP : String → Except String JSValue) (s : String),
      response.statusCode < 400 →
      contentTypeOf response = some (HeaderValue.str s) →
      handleApiBody options response jsonP yamlP
        = ApiOutcome.rejected (ApiError.thrown "contentType.find is not a function"))
  ∧ (∀ (options : ApiRequestOptions) (response : IncomingMessage)
        (jsonP yamlP : String → Except String JSValue) (b : Bool),
      response.statusCode < 400 →
      isJsonOf (contentTypeOf response) = Except.ok b →
      ((response.body.length = 0 →
          handleApiBody options response jsonP yamlP = ApiOutcome.resolved JSValue.null)
      ∧ (response.body.length ≠ 0 → b = true →
          handleApiBody options response jsonP yamlP = parsedOutcome (jsonP response.body))
      ∧ (response.body.length ≠ 0 → b = false →
          jsIncludes (jsStr options.path) ".yml" = true →
          handleApiBody options response jsonP yamlP = parsedOutcome (yamlP response.body))
      ∧ (response.body.length ≠ 0 → b = false →
          jsIncludes (jsStr options.path) ".yml" = false →
          handleApiBody options response jsonP yamlP
            = ApiOutcome.resolved (JSValue.str response.body))))
  ∧ handleApiBody sampleOptions jsonResponse jsonParse echoParse
      = ApiOutcome.resolved (JSValue.obj [("a", JSValue.num 1)]) := by
  refine ⟨?_, ?_, rfl⟩
  · intro options response jsonP yamlP s hlt hct
    simp [handleApiBody, hct, isJsonOf]
  · intro options response jsonP yamlP b hlt hct
    have hnotge : ¬(400 ≤ response.statusCode) := by omega
    refine ⟨?_, ?_, ?_, ?_⟩
    · intro hlen
      simp [handleApiBody, hct, hnotge, hlen]
    · intro hlen hb
      subst hb
      simp [handleApiBody, hct, hnotge, hlen]
    · intro hlen hb hyml
      subst hb
      simp [handleApiBody, hct, hnotge, hlen, hyml]
    · intro hlen hb hyml
      subst hb
      simp [handleApiBody, hct, hnotge, hlen, hyml]

/-- C9 witness: the amended theorem applied at concrete inputs — the
sequence-form part at an empty-body 200 response without a content type
(resolving `null`), and the string-form part at a 200 response whose
`content-type` value is the single string `application/json` (rejecting
with the TypeError despite the JSON-looking header and body). -/
theorem c9_body_parse_dispatch_guarded_witness :
    handleApiBody sampleOptions emptyBodyResponse jsonParse echoParse
      = ApiOutcome.resolved JSValue.null
  ∧ handleApiBody sampleOptions strContentTypeResponse jsonParse echoParse
      = ApiOutcome.rejected (ApiError.thrown "contentType.find is not a function") :=
  ⟨(c9_body_parse_dispatch_guarded.2.1 sampleOptions emptyBodyResponse jsonParse echoParse
      false (by decide) rfl).1 rfl,
    c9_body_parse_dispatch_guarded.1 sampleOptions strContentTypeResponse jsonParse echoParse
      "application/json" (by decide) rfl⟩

/-- Every attempt of a download run issues its request built by
`downloadRequestOpts` from that hop's URL. -/
theorem downloadAttempts_are_constructed (url : String) (redirectCount : Nat)
    (responses : List IncomingMessage) :
    ∃ urls : List String,
      downloadAttempts url redirectCount responses = urls.map downloadRequestOpts := by
  induction responses generalizing url redirectCount with
  | nil => exact ⟨[url], rfl⟩
  | cons r rest ih =>
    cases hstep : doDownloadStep url redirectCount r with
    | fail msg => exact ⟨[url], by simp [downloadAttempts, hstep]⟩
    | pipe => exact ⟨[url], by simp [downloadAttempts, hstep]⟩
    | redirect u c =>
      obtain ⟨urls, hurls⟩ := ih u c
      exact ⟨url :: urls, by simp [downloadAttempts, hstep, hurls]⟩

/-- C10: the download request descriptor is built from exactly the parsed
URL's protocol, hostname and path plus the single `User-Agent` header; the
descriptor has no port field at all (and `hostname` excludes the port), so
an explicit port in the URL — parsed out as `8080` in the concrete
conjunct — is dropped; and every attempt of every redirect chain issues a
request of exactly this construction. -/
theorem c10_download_request_construction (url : String) :
    downloadRequestOpts url
      = ⟨(parseUrl url).protocol, (parseUrl url).hostname, (parseUrl url).path,
          [("User-Agent", "electron-builder")]⟩
  ∧ parseUrl "https://host:8080/file.zip"
      = ⟨some "https:", some "host", some "8080", some "/file.zip"⟩
  ∧ downloadRequestOpts "https://host:8080/file.zip"
      = ⟨some "https:", some "host", some "/file.zip", [("User-Agent", "electron-builder")]⟩
  ∧ ∀ (redirectCount : Nat) (responses : List IncomingMessage),
      ∃ urls : List String,
        downloadAttempts url redirectCount responses = urls.map downloadRequestOpts := by
  refine ⟨rfl, by decide, by decide, ?_⟩
  intro redirectCount responses
  exact downloadAttempts_are_constructed url redirectCount responses

end ElectronHttp
